import Mathlib

/-!
Verification of the fanion feature-flag library.

Shallow embedding of the core registry (`FeatureManager`, feature.ts),
the error module (errors.ts), the storage drivers (drivers/memory.ts,
drivers/databases/knex.ts) and the AdonisJS service wrapper
(`FanionService`, fanion_service.ts).  JavaScript `Promise` rejection is
modelled with `Except JsError`; `Map` and `Set` are association lists /
lists with the same insertion-order, replace-in-place semantics; an
`undefined` result is `Option.none`.
-/

/-- JavaScript error values thrown by the library and by user code.
`featureNotExists` carries the constructor argument of
`FeatureNotExistsError`, `genericError` a plain `new Error(message)`,
`typeError` a runtime `TypeError`, `thrown` an arbitrary value thrown by a
caller-supplied evaluator. -/
inductive JsError where
  | featureNotExists (featureName : String)
  | providerNotDefined
  | genericError (message : String)
  | typeError (message : String)
  | thrown (message : String)
deriving DecidableEq

/-- The `message` property of each error, following the `super(...)` calls
in errors.ts (`FeatureNotExistsError` wraps its argument in
`Feature ... does not exists`; `ProviderNotDefined` has a fixed message). -/
def JsError.message : JsError → String
  | .featureNotExists featureName => "Feature " ++ featureName ++ " does not exists"
  | .providerNotDefined => "Database provider not defined"
  | .genericError m => m
  | .typeError m => m
  | .thrown m => m

/-- `true` when the error is an instance of a dedicated error subclass of
the library (errors.ts), `false` for a plain `new Error(...)`. -/
def JsError.isLibrarySpecific : JsError → Bool
  | .featureNotExists _ => true
  | .providerNotDefined => true
  | _ => false

/-- JavaScript `Map.prototype.set`: replace the binding in place when the
key is present, otherwise append it (insertion order preserved). -/
def mapSet {α : Type} : List (String × α) → String → α → List (String × α)
  | [], k, v => [(k, v)]
  | p :: rest, k, v => if p.1 == k then (k, v) :: rest else p :: mapSet rest k v

/-- JavaScript `Map.prototype.get` (`undefined` when absent). -/
def mapGet {α : Type} (m : List (String × α)) (k : String) : Option α :=
  (m.find? (fun p => p.1 == k)).map (fun p => p.2)

/-- JavaScript `Map.prototype.has`. -/
def mapHas {α : Type} (m : List (String × α)) (k : String) : Bool :=
  m.any (fun p => p.1 == k)

/-- JavaScript `Map.prototype.delete` (drop the binding for the key). -/
def mapDelete {α : Type} : List (String × α) → String → List (String × α)
  | [], _ => []
  | p :: rest, k => if p.1 == k then rest else p :: mapDelete rest k

/-- JavaScript `Set.prototype.add`: append when not already a member. -/
def setAdd (s : List String) (x : String) : List String :=
  if s.contains x then s else s ++ [x]

/-- A feature flag check function (`FeatureCheck` in types/provider.ts):
receives the caller's context, may reject. -/
def FeatureCheck (Ctx : Type) : Type := Ctx → Except JsError Bool

/-- The `FeatureStorageProvider` contract
(types/feature_storage_provider.ts), over a storage-state type `σ`.
Stateful methods return the updated state.  `initStore` is `none` for a
provider object that does not implement the method (the in-memory driver),
matching JavaScript duck typing. -/
structure FeatureStorageProvider (σ : Type) where
  set : σ → String → Bool → Except JsError σ
  get : σ → String → Except JsError (Option Bool)
  delete : σ → String → Except JsError σ
  initStore : Option (σ → Except JsError σ)

/-- The feature registry (`FeatureManager` in feature.ts): the map of flag
name to optional check function, and the optional attached store state. -/
structure FeatureManager (Ctx σ : Type) where
  featureMap : List (String × Option (FeatureCheck Ctx))
  store : Option σ

/-- `FeatureManager.define(flagName, check?)`:
`this.featureMap.set(flagName, check)`. -/
def FeatureManager.define {Ctx σ : Type} (m : FeatureManager Ctx σ)
    (flagName : String) (check : Option (FeatureCheck Ctx)) : FeatureManager Ctx σ :=
  { m with featureMap := mapSet m.featureMap flagName check }

/-- `FeatureManager.defineAndStore(flagName, defaultValue)`: throws a plain
`Error("No store provider defined")` when no store is attached, otherwise
`this.store.set(flagName, defaultValue)` (whose failure propagates). -/
def FeatureManager.defineAndStore {Ctx σ : Type} (impl : FeatureStorageProvider σ)
    (m : FeatureManager Ctx σ) (flagName : String) (defaultValue : Bool) :
    Except JsError (FeatureManager Ctx σ) :=
  match m.store with
  | none => .error (.genericError "No store provider defined")
  | some s => (impl.set s flagName defaultValue).map (fun s2 => { m with store := some s2 })

/-- `FeatureManager.active(flagName, context?)`, feature.ts:
if the name is not in `featureMap`, fall through to the store when one is
attached (returning a defined stored boolean, propagating a store failure)
and otherwise throw `FeatureNotExistsError` with an already formatted
sentence; if the name is in `featureMap` with no check function return
`true`, else return the check's outcome (its rejection propagates). -/
def FeatureManager.active {Ctx σ : Type} (impl : FeatureStorageProvider σ)
    (m : FeatureManager Ctx σ) (flagName : String) (context : Ctx) :
    Except JsError Bool :=
  if mapHas m.featureMap flagName then
    match mapGet m.featureMap flagName with
    | some (some check) => check context
    | _ => .ok true
  else
    match m.store with
    | some s =>
      match impl.get s flagName with
      | .error e => .error e
      | .ok (some result) => .ok result
      | .ok none => .error (.featureNotExists ("Feature flag '" ++ flagName ++ "' is not defined"))
    | none => .error (.featureNotExists ("Feature flag '" ++ flagName ++ "' is not defined"))

/-- `FeatureManager.initStore()`: `await this.store?.initStore()` — a no-op
when no store is attached; when one is attached, calls its `initStore`
method (a `TypeError` when the store object has none), propagating its
failure. -/
def FeatureManager.initStore {Ctx σ : Type} (impl : FeatureStorageProvider σ)
    (m : FeatureManager Ctx σ) : Except JsError (FeatureManager Ctx σ) :=
  match m.store with
  | none => .ok m
  | some s =>
    match impl.initStore with
    | none => .error (.typeError "this.store.initStore is not a function")
    | some hook => (hook s).map (fun s2 => { m with store := some s2 })

/-- State of the in-memory driver: its private `Map<string, boolean>`. -/
abbrev InMemoryStorage : Type := List (String × Bool)

/-- `InMemoryDriver` (drivers/memory.ts): a `Map`-backed provider whose
operations never fail; it implements no `initStore` method. -/
def InMemoryDriver : FeatureStorageProvider InMemoryStorage where
  set := fun s flag value => .ok (mapSet s flag value)
  get := fun s flag => .ok (mapGet s flag)
  delete := fun s featureName => .ok (mapDelete s featureName)
  initStore := none

/-- A value as returned by the SQL row for the feature-value column: SQLite
hands booleans back as integers, other backends as booleans. -/
inductive SqlValue where
  | int (n : Int)
  | bool (b : Bool)
deriving DecidableEq

/-- State of the Knex driver: the rows of the feature-flags table, keyed by
the feature-name column (a primary key, hence at most one row per name). -/
abbrev KnexTable : Type := List (String × SqlValue)

/-- `KnexDatabaseDriver.get` (drivers/databases/knex.ts): `.where(name,
flag).first()` then `row[valueColumn]` — when no row matches, `row` is
`undefined` and the property read throws a `TypeError`; an integer value is
compared with `1`, any other value is returned as is. -/
def knexGet (table : KnexTable) (flag : String) : Except JsError (Option Bool) :=
  match table.find? (fun r => r.1 == flag) with
  | none => .error (.typeError "Cannot read properties of undefined")
  | some row =>
    match row.2 with
    | .int n => .ok (some (n == 1))
    | .bool b => .ok (some b)

/-- `KnexDatabaseDriver.set`: insert with `onConflict(name).merge(value)` —
an upsert on the primary key.  `encode` is the backend's storage encoding
of a boolean (integer on SQLite). -/
def knexSet (encode : Bool → SqlValue) (table : KnexTable) (flag : String)
    (value : Bool) : KnexTable :=
  if table.any (fun r => r.1 == flag) then
    table.map (fun r => if r.1 == flag then (flag, encode value) else r)
  else table ++ [(flag, encode value)]

/-- `KnexDatabaseDriver.delete`: `.where(name, featureName).del()`. -/
def knexDelete (table : KnexTable) (featureName : String) : KnexTable :=
  table.filter (fun r => !(r.1 == featureName))

/-- SQLite's encoding of a boolean column value. -/
def sqliteBool (b : Bool) : SqlValue := .int (if b then 1 else 0)

/-- `KnexDatabaseDriver` as a storage provider; `initStore` delegates to
`createTableIfNotExists`, which only touches the schema and leaves the
rows unchanged. -/
def KnexDatabaseDriver (encode : Bool → SqlValue) : FeatureStorageProvider KnexTable where
  set := fun t flag value => .ok (knexSet encode t flag value)
  get := fun t flag => knexGet t flag
  delete := fun t featureName => .ok (knexDelete t featureName)
  initStore := some (fun t => .ok t)

/-- The AdonisJS service wrapper (`FanionService`, fanion_service.ts): it
owns a `FeatureManager`, its own insertion-ordered `Set` of flag names,
and the optional `defaultContextProvider` from its configuration.  The
manager's context type is `Option Ctx` because the service may pass
`undefined` through.  (The `debug` logger only writes to the console and
is not modelled.) -/
structure FanionService (Ctx σ : Type) where
  featureManager : FeatureManager (Option Ctx) σ
  definedFlags : List String
  defaultContextProvider : Option (Unit → Except JsError (Option Ctx))

/-- `FanionService.define`: delegates to the manager and records the name
in `definedFlags`. -/
def FanionService.define {Ctx σ : Type} (svc : FanionService Ctx σ)
    (name : String) (check : Option (FeatureCheck (Option Ctx))) : FanionService Ctx σ :=
  { svc with
    featureManager := svc.featureManager.define name check
    definedFlags := setAdd svc.definedFlags name }

/-- `FanionService.defineAndStore`: awaits the manager's `defineAndStore`
(so a failure propagates before `definedFlags` is touched), then records
the name in `definedFlags`. -/
def FanionService.defineAndStore {Ctx σ : Type} (impl : FeatureStorageProvider σ)
    (svc : FanionService Ctx σ) (name : String) (defaultValue : Bool) :
    Except JsError (FanionService Ctx σ) :=
  (FeatureManager.defineAndStore impl svc.featureManager name defaultValue).map
    (fun fm => { svc with featureManager := fm, definedFlags := setAdd svc.definedFlags name })

/-- `FanionService.active`: substitutes `defaultContextProvider()` when no
context was supplied and one is configured, then delegates to the
manager's `active`; its `try/catch` only logs and rethrows. -/
def FanionService.active {Ctx σ : Type} (impl : FeatureStorageProvider σ)
    (svc : FanionService Ctx σ) (name : String) (context : Option Ctx) :
    Except JsError Bool :=
  (match context, svc.defaultContextProvider with
    | none, some provider => provider ()
    | c, _ => .ok c).bind
    (fun actualContext => FeatureManager.active impl svc.featureManager name actualContext)

/-- `FanionService.getDefinedFlags`: `Array.from(this.definedFlags)`. -/
def FanionService.getDefinedFlags {Ctx σ : Type} (svc : FanionService Ctx σ) : List String :=
  svc.definedFlags

/-- `FanionService.activeMany(flags, context?)`: evaluates every name with
`active`, mapping a per-name failure to `false`, then assembles the
`results` record by assigning `results[flag] = isActive` for each outcome
(object-property insertion-order semantics). -/
def FanionService.activeMany {Ctx σ : Type} (impl : FeatureStorageProvider σ)
    (svc : FanionService Ctx σ) (flags : List String) (context : Option Ctx) :
    List (String × Bool) :=
  (flags.map (fun flag =>
    match FanionService.active impl svc flag context with
    | .ok isActive => (flag, isActive)
    | .error _ => (flag, false))).foldl
    (fun results p => mapSet results p.1 p.2) []

/-- A registration call made against a `FanionService`, for stating
trace-level properties of `definedFlags`. -/
inductive SvcOp (Ctx σ : Type) where
  | defineOp (name : String) (check : Option (FeatureCheck (Option Ctx)))
  | defineAndStoreOp (name : String) (value : Bool)

/-- The flag name a registration call carries. -/
def SvcOp.flagName {Ctx σ : Type} : SvcOp Ctx σ → String
  | .defineOp n _ => n
  | .defineAndStoreOp n _ => n

/-- Run a sequence of registration calls; a rejection aborts the rest, as
an uncaught `await` failure would. -/
def runOps {Ctx σ : Type} (impl : FeatureStorageProvider σ) :
    FanionService Ctx σ → List (SvcOp Ctx σ) → Except JsError (FanionService Ctx σ)
  | svc, [] => .ok svc
  | svc, .defineOp n chk :: rest => runOps impl (svc.define n chk) rest
  | svc, .defineAndStoreOp n v :: rest =>
    (FanionService.defineAndStore impl svc n v).bind (fun svc2 => runOps impl svc2 rest)

/-- A fresh manager with no store attached (`new FeatureManager()`). -/
def emptyManagerNoStore : FeatureManager Unit InMemoryStorage :=
  { featureMap := [], store := none }

/-- A fresh manager attached to an empty in-memory store. -/
def emptyManagerMemStore : FeatureManager Unit InMemoryStorage :=
  { featureMap := [], store := some [] }

/-- A fresh service with no store and no default context provider. -/
def freshServiceNoStore : FanionService Unit InMemoryStorage :=
  { featureManager := { featureMap := [], store := none }
    definedFlags := []
    defaultContextProvider := none }

/-- A fresh service attached to an empty in-memory store. -/
def freshServiceMemStore : FanionService Unit InMemoryStorage :=
  { featureManager := { featureMap := [], store := some [] }
    definedFlags := []
    defaultContextProvider := none }

/-- A storage provider like the in-memory one but exposing an `initStore`
method that records a marker entry, standing in for a driver whose
initialization succeeds. -/
def memDriverWithHook : FeatureStorageProvider InMemoryStorage :=
  { InMemoryDriver with initStore := some (fun s => .ok (mapSet s "ready" true)) }

/-- A storage provider whose `initStore` method rejects, standing in for a
driver whose database connection fails. -/
def memDriverFailingHook : FeatureStorageProvider InMemoryStorage :=
  { InMemoryDriver with initStore := some (fun _ => .error (.genericError "connect failed")) }

/-- A manager whose flag `f` has an evaluator returning `false` while the
attached store holds `true` for the same name. -/
def shadowedManager : FeatureManager Unit InMemoryStorage :=
  { featureMap := [("f", some (fun _ => .ok false))], store := some [("f", true)] }

/-- A service whose flag `crash` has an evaluator that throws `boom`. -/
def crashService : FanionService Unit InMemoryStorage :=
  { featureManager := { featureMap := [("crash", some (fun _ => .error (.thrown "boom")))], store := none }
    definedFlags := ["crash"]
    defaultContextProvider := none }

/-- A service with one well-behaved defined flag, mirroring the repository
test `should handle errors in activeMany gracefully`. -/
def validFlagService : FanionService Unit InMemoryStorage :=
  { featureManager := { featureMap := [("valid-flag", some (fun _ => .ok true))], store := none }
    definedFlags := ["valid-flag"]
    defaultContextProvider := none }

/-- A concrete registration trace: two distinct names, one re-registered. -/
def sampleOps : List (SvcOp Unit InMemoryStorage) :=
  [.defineOp "a" (some (fun _ => .ok true)), .defineAndStoreOp "b" true, .defineOp "a" none]

theorem string_append_assoc (a b c : String) : a ++ b ++ c = a ++ (b ++ c) := by
  rcases a with ⟨la⟩; rcases b with ⟨lb⟩; rcases c with ⟨lc⟩
  show String.mk ((la ++ lb) ++ lc) = String.mk (la ++ (lb ++ lc))
  rw [List.append_assoc]

theorem mapGet_mapSet_self {α : Type} (m : List (String × α)) (k : String) (v : α) :
    mapGet (mapSet m k v) k = some v := by
  induction m with
  | nil => simp [mapSet, mapGet]
  | cons p rest ih =>
    by_cases h : p.1 == k
    · simp [mapSet, h, mapGet]
    · simp only [mapSet, h, Bool.false_eq_true, if_false]
      simpa [mapGet, List.find?_cons, h] using ih

theorem mapHas_of_mapGet {α : Type} {m : List (String × α)} {k : String} {v : α}
    (h : mapGet m k = some v) : mapHas m k = true := by
  induction m with
  | nil => simp [mapGet] at h
  | cons p rest ih =>
    by_cases hp : p.1 == k
    · simp [mapHas, hp]
    · simp only [mapGet, List.find?_cons, hp] at h
      simp only [mapHas, List.any_cons, hp, Bool.false_or]
      exact ih h

theorem mapGet_eq_none_of_not_has {α : Type} {m : List (String × α)} {k : String}
    (h : mapHas m k = false) : mapGet m k = none := by
  induction m with
  | nil => simp [mapGet]
  | cons p rest ih =>
    simp only [mapHas, List.any_cons, Bool.or_eq_false_iff] at h
    simp only [mapGet, List.find?_cons, h.1]
    exact ih (by simpa [mapHas] using h.2)

theorem mapGet_of_has {α : Type} {m : List (String × α)} {k : String}
    (h : mapHas m k = true) : ∃ v, mapGet m k = some v ∧ (k, v) ∈ m := by
  induction m with
  | nil => simp [mapHas] at h
  | cons p rest ih =>
    by_cases hp : p.1 == k
    · refine ⟨p.2, ?_, ?_⟩
      · simp [mapGet, List.find?_cons, hp]
      · have : p = (k, p.2) := by
          have := (beq_iff_eq).mp hp
          cases p; simp_all
        simp [← this]
    · simp only [mapHas, List.any_cons, hp, Bool.false_or] at h
      obtain ⟨v, hv, hmem⟩ := ih h
      refine ⟨v, ?_, List.mem_cons_of_mem _ hmem⟩
      simp [mapGet, List.find?_cons, hp]
      simpa [mapGet] using hv

theorem mem_keys_mapSet {α : Type} (m : List (String × α)) (k n : String) (v : α) :
    n ∈ (mapSet m k v).map Prod.fst ↔ (n ∈ m.map Prod.fst ∨ n = k) := by
  induction m with
  | nil => simp [mapSet]
  | cons p rest ih =>
    by_cases hp : p.1 == k
    · have hk : p.1 = k := beq_iff_eq.mp hp
      simp [mapSet, hp, hk]
      tauto
    · simp [mapSet, hp, ih]
      tauto

theorem keys_nodup_mapSet {α : Type} {m : List (String × α)} (k : String) (v : α)
    (h : (m.map Prod.fst).Nodup) : ((mapSet m k v).map Prod.fst).Nodup := by
  induction m with
  | nil => simp [mapSet]
  | cons p rest ih =>
    simp only [List.map_cons, List.nodup_cons] at h
    by_cases hp : p.1 == k
    · have hk : p.1 = k := beq_iff_eq.mp hp
      simp only [mapSet, hp, if_true, List.map_cons, List.nodup_cons]
      exact ⟨by simpa [hk] using h.1, h.2⟩
    · have hk : ¬ p.1 = k := by simpa using hp
      simp only [mapSet, hp, Bool.false_eq_true, if_false, List.map_cons, List.nodup_cons]
      refine ⟨?_, ih h.2⟩
      rw [mem_keys_mapSet]
      rintro (hc | hc)
      · exact h.1 hc
      · exact hk hc

theorem mem_mapSet {α : Type} {m : List (String × α)} {k : String} {v : α} {p : String × α}
    (h : p ∈ mapSet m k v) : p ∈ m ∨ p = (k, v) := by
  induction m with
  | nil => simp [mapSet] at h; simp [h]
  | cons q rest ih =>
    by_cases hq : q.1 == k
    · simp only [mapSet, hq, if_true, List.mem_cons] at h
      rcases h with h | h
      · right; exact h
      · left; exact List.mem_cons_of_mem _ h
    · simp only [mapSet, hq, Bool.false_eq_true, if_false, List.mem_cons] at h
      rcases h with h | h
      · left; simp [h]
      · rcases ih h with h2 | h2
        · left; exact List.mem_cons_of_mem _ h2
        · right; exact h2

theorem foldl_mapSet_mem_keys (l acc : List (String × Bool)) (n : String) :
    n ∈ ((l.foldl (fun rs p => mapSet rs p.1 p.2) acc).map Prod.fst) ↔
      (n ∈ acc.map Prod.fst ∨ n ∈ l.map Prod.fst) := by
  induction l generalizing acc with
  | nil => simp
  | cons p rest ih =>
    simp only [List.foldl_cons, ih, mem_keys_mapSet, List.map_cons, List.mem_cons]
    tauto

theorem foldl_mapSet_nodup (l : List (String × Bool)) (acc : List (String × Bool))
    (h : (acc.map Prod.fst).Nodup) :
    ((l.foldl (fun rs p => mapSet rs p.1 p.2) acc).map Prod.fst).Nodup := by
  induction l generalizing acc with
  | nil => exact h
  | cons p rest ih => exact ih _ (keys_nodup_mapSet _ _ h)

theorem foldl_mapSet_entries (f : String → Bool) (l acc : List (String × Bool))
    (hl : ∀ p ∈ l, p.2 = f p.1) (hacc : ∀ p ∈ acc, p.2 = f p.1) :
    ∀ p ∈ l.foldl (fun rs q => mapSet rs q.1 q.2) acc, p.2 = f p.1 := by
  induction l generalizing acc with
  | nil => exact hacc
  | cons q rest ih =>
    simp only [List.foldl_cons]
    refine ih _ (fun p hp => hl p (List.mem_cons_of_mem _ hp)) ?_
    intro p hp
    rcases mem_mapSet hp with h | h
    · exact hacc p h
    · subst h
      exact hl q (List.mem_cons_self _ _)

theorem mapGet_eq_of_entries {m : List (String × Bool)} {f : String → Bool} {n : String}
    (hent : ∀ p ∈ m, p.2 = f p.1) (hmem : n ∈ m.map Prod.fst) :
    mapGet m n = some (f n) := by
  have hhas : mapHas m n = true := by
    simp only [mapHas, List.any_eq_true]
    rcases List.mem_map.mp hmem with ⟨p, hp, hfst⟩
    exact ⟨p, hp, by simp [hfst]⟩
  obtain ⟨v, hget, hpmem⟩ := mapGet_of_has hhas
  have := hent _ hpmem
  simp only at this
  rw [hget, this]

theorem active_of_check {Ctx σ : Type} (impl : FeatureStorageProvider σ)
    (m : FeatureManager Ctx σ) {n : String} {check : FeatureCheck Ctx}
    (h : mapGet m.featureMap n = some (some check)) (c : Ctx) :
    FeatureManager.active impl m n c = check c := by
  have hhas : mapHas m.featureMap n = true := mapHas_of_mapGet h
  simp [FeatureManager.active, hhas, h]

theorem active_not_found {Ctx σ : Type} (impl : FeatureStorageProvider σ)
    (m : FeatureManager Ctx σ) {n : String} (c : Ctx)
    (hhas : mapHas m.featureMap n = false)
    (hstore : m.store = none ∨ ∃ s, m.store = some s ∧ impl.get s n = .ok none) :
    FeatureManager.active impl m n c =
      .error (.featureNotExists ("Feature flag '" ++ n ++ "' is not defined")) := by
  rcases hstore with hnone | ⟨s, hs, hg⟩
  · simp [FeatureManager.active, hhas, hnone]
  · simp [FeatureManager.active, hhas, hs, hg]

theorem service_active_no_provider {Ctx σ : Type} (impl : FeatureStorageProvider σ)
    (svc : FanionService Ctx σ) (n : String) (c : Option Ctx)
    (hprov : svc.defaultContextProvider = none) :
    FanionService.active impl svc n c = FeatureManager.active impl svc.featureManager n c := by
  cases c <;> simp [FanionService.active, hprov, Except.bind]

theorem runOps_definedFlags {Ctx σ : Type} (impl : FeatureStorageProvider σ)
    (ops : List (SvcOp Ctx σ)) :
    ∀ (svc svc2 : FanionService Ctx σ), runOps impl svc ops = .ok svc2 →
      svc2.definedFlags = ops.foldl (fun acc op => setAdd acc op.flagName) svc.definedFlags := by
  induction ops with
  | nil =>
    intro svc svc2 h
    simp only [runOps] at h
    cases h
    rfl
  | cons op rest ih =>
    intro svc svc2 h
    cases op with
    | defineOp n chk =>
      simp only [runOps] at h
      simpa [SvcOp.flagName, FanionService.define] using ih _ _ h
    | defineAndStoreOp n v =>
      simp only [runOps] at h
      cases hd : FanionService.defineAndStore impl svc n v with
      | error e => rw [hd] at h; simp [Except.bind] at h
      | ok svcMid =>
        rw [hd] at h
        simp only [Except.bind] at h
        have hflags : svcMid.definedFlags = setAdd svc.definedFlags n := by
          unfold FanionService.defineAndStore at hd
          cases hm : FeatureManager.defineAndStore impl svc.featureManager n v with
          | error e => rw [hm] at hd; simp [Except.map] at hd
          | ok fm =>
            rw [hm] at hd
            simp only [Except.map] at hd
            cases hd
            rfl
        simpa [SvcOp.flagName, hflags] using ih _ _ h

/-- C1: when a flag name `n` is present in `featureMap` with an evaluator
`e` and the attached store also holds a boolean for `n`, `active(n, c)`
returns the outcome of `e c`; the conclusion does not depend on the stored
boolean `b` or on the store at all, so the store value is never consulted
or returned. -/
theorem active_prefers_evaluator_over_store {Ctx σ : Type}
    (impl : FeatureStorageProvider σ) (m : FeatureManager Ctx σ)
    (n : String) (e : FeatureCheck Ctx) (s : σ) (b : Bool) (c : Ctx)
    (hdef : mapGet m.featureMap n = some (some e))
    (hstore : m.store = some s)
    (hheld : impl.get s n = .ok (some b)) :
    FeatureManager.active impl m n c = e c :=
  active_of_check impl m hdef c

/-- Witness for C1: flag `f` has an evaluator returning `false` while the
store holds `true`; `active` returns the evaluator's `false`. -/
theorem active_prefers_evaluator_over_store_witness :
    FeatureManager.active InMemoryDriver shadowedManager "f" () = .ok false :=
  active_prefers_evaluator_over_store InMemoryDriver shadowedManager "f"
    (fun _ => .ok false) [("f", true)] true () rfl rfl rfl

/-- C2: for a flag name `n` never defined, with no store attached or a
store holding no value for `n`, `active` fails with the not-found error
(`FeatureNotExistsError`), and the string the error carries contains the
flag name `n`. -/
theorem active_unknown_flag_not_found {Ctx σ : Type}
    (impl : FeatureStorageProvider σ) (m : FeatureManager Ctx σ)
    (n : String) (c : Ctx)
    (hhas : mapHas m.featureMap n = false)
    (hstore : m.store = none ∨ ∃ s, m.store = some s ∧ impl.get s n = .ok none) :
    ∃ carried, FeatureManager.active impl m n c = .error (.featureNotExists carried) ∧
      ∃ before after, carried = before ++ n ++ after := by
  refine ⟨"Feature flag '" ++ n ++ "' is not defined", ?_, "Feature flag '", "' is not defined", rfl⟩
  exact active_not_found impl m c hhas hstore

/-- Witness for C2: the undefined flag `dark-mode` on a fresh manager. -/
theorem active_unknown_flag_not_found_witness :
    ∃ carried,
      FeatureManager.active InMemoryDriver emptyManagerNoStore "dark-mode" () =
        .error (.featureNotExists carried) ∧
      ∃ before after, carried = before ++ "dark-mode" ++ after :=
  active_unknown_flag_not_found InMemoryDriver emptyManagerNoStore "dark-mode" ()
    rfl (Or.inl rfl)

/-- C3: with a store attached, `defineAndStore(n, v)` succeeds, writes `v`
into the store under `n`, leaves `featureMap` untouched, and a subsequent
`active(n)` (no prior `define(n)`) returns exactly `v`. -/
theorem defineAndStore_writes_store_only {Ctx : Type}
    (m : FeatureManager Ctx InMemoryStorage) (s : InMemoryStorage)
    (n : String) (v : Bool) (c : Ctx)
    (hstore : m.store = some s)
    (hundef : mapHas m.featureMap n = false) :
    ∃ m2, FeatureManager.defineAndStore InMemoryDriver m n v = .ok m2 ∧
      m2.featureMap = m.featureMap ∧
      m2.store = some (mapSet s n v) ∧
      mapGet (mapSet s n v) n = some v ∧
      FeatureManager.active InMemoryDriver m2 n c = .ok v := by
  refine ⟨{ m with store := some (mapSet s n v) }, ?_, rfl, rfl, mapGet_mapSet_self s n v, ?_⟩
  · simp [FeatureManager.defineAndStore, hstore, InMemoryDriver, Except.map]
  · simp [FeatureManager.active, hundef, InMemoryDriver, mapGet_mapSet_self]

/-- Witness for C3: store `false` under `dark` on a fresh manager with an
empty in-memory store; `active` then returns `false`. -/
theorem defineAndStore_writes_store_only_witness :
    ∃ m2, FeatureManager.defineAndStore InMemoryDriver emptyManagerMemStore "dark" false = .ok m2 ∧
      m2.featureMap = emptyManagerMemStore.featureMap ∧
      m2.store = some (mapSet [] "dark" false) ∧
      mapGet (mapSet [] "dark" false) "dark" = some false ∧
      FeatureManager.active InMemoryDriver m2 "dark" () = .ok false :=
  defineAndStore_writes_store_only emptyManagerMemStore [] "dark" false () rfl rfl

/-- C4: when flag `n` has an evaluator that throws `err`, `active(n, c)`
rejects with exactly `err` (at the manager and at the service), while
`activeMany([n], c)` resolves and maps `n` to `false`. -/
theorem evaluator_error_strict_active_lenient_activeMany {Ctx σ : Type}
    (impl : FeatureStorageProvider σ) (svc : FanionService Ctx σ)
    (n : String) (ev : FeatureCheck (Option Ctx)) (c : Option Ctx) (err : JsError)
    (hdef : mapGet svc.featureManager.featureMap n = some (some ev))
    (hev : ev c = .error err)
    (hprov : svc.defaultContextProvider = none) :
    FeatureManager.active impl svc.featureManager n c = .error err ∧
    FanionService.active impl svc n c = .error err ∧
    FanionService.activeMany impl svc [n] c = [(n, false)] := by
  have h1 : FeatureManager.active impl svc.featureManager n c = .error err := by
    rw [active_of_check impl svc.featureManager hdef c, hev]
  have h2 : FanionService.active impl svc n c = .error err := by
    rw [service_active_no_provider impl svc n c hprov]
    exact h1
  refine ⟨h1, h2, ?_⟩
  simp [FanionService.activeMany, h2, mapSet]

/-- Witness for C4: the scenario from the spec, a `crash` evaluator
throwing `boom`. -/
theorem evaluator_error_strict_active_lenient_activeMany_witness :
    FeatureManager.active InMemoryDriver crashService.featureManager "crash" none =
      .error (.thrown "boom") ∧
    FanionService.active InMemoryDriver crashService "crash" none = .error (.thrown "boom") ∧
    FanionService.activeMany InMemoryDriver crashService ["crash"] none = [("crash", false)] :=
  evaluator_error_strict_active_lenient_activeMany InMemoryDriver crashService
    "crash" (fun _ => .error (.thrown "boom")) none (.thrown "boom") rfl rfl rfl

/-- C5: `activeMany(names, context)` is a total function (it never fails as
a whole — its type is not fallible): its result has no duplicate keys, its
keys are exactly the requested names, and every requested name is mapped
to its `active()` outcome, with a failed lookup mapped to `false`. -/
theorem activeMany_total_one_entry_per_name {Ctx σ : Type}
    (impl : FeatureStorageProvider σ) (svc : FanionService Ctx σ)
    (flags : List String) (c : Option Ctx) :
    ((FanionService.activeMany impl svc flags c).map Prod.fst).Nodup ∧
    (∀ n, n ∈ (FanionService.activeMany impl svc flags c).map Prod.fst ↔ n ∈ flags) ∧
    (∀ n, n ∈ flags →
      mapGet (FanionService.activeMany impl svc flags c) n =
        some (match FanionService.active impl svc n c with
              | .ok b => b
              | .error _ => false)) := by
  set val : String → Bool := fun n =>
    match FanionService.active impl svc n c with
    | .ok b => b
    | .error _ => false with hval
  have hfun : (fun flag =>
      match FanionService.active impl svc flag c with
      | .ok isActive => ((flag : String), isActive)
      | .error _ => (flag, false)) = fun flag => ((flag : String), val flag) := by
    funext flag
    cases h : FanionService.active impl svc flag c <;> simp [hval, h]
  have hact : FanionService.activeMany impl svc flags c =
      (flags.map (fun flag => (flag, val flag))).foldl (fun rs q => mapSet rs q.1 q.2) [] := by
    rw [FanionService.activeMany, hfun]
  have hentries : ∀ p ∈ flags.map (fun flag => ((flag : String), val flag)), p.2 = val p.1 := by
    intro p hp
    rcases List.mem_map.mp hp with ⟨flag, _, rfl⟩
    rfl
  have hkeysl : (flags.map (fun flag => ((flag : String), val flag))).map Prod.fst = flags := by
    rw [List.map_map]
    have hcomp : (Prod.fst ∘ fun flag => ((flag : String), val flag)) = id := by
      funext flag
      rfl
    rw [hcomp, List.map_id]
  refine ⟨?_, ?_, ?_⟩
  · rw [hact]
    exact foldl_mapSet_nodup _ [] (by simp)
  · intro n
    rw [hact, foldl_mapSet_mem_keys, hkeysl]
    simp
  · intro n hn
    rw [hact]
    have hmem : n ∈ ((flags.map (fun flag => (flag, val flag))).foldl
        (fun rs q => mapSet rs q.1 q.2) []).map Prod.fst := by
      rw [foldl_mapSet_mem_keys, hkeysl]
      exact Or.inr hn
    exact mapGet_eq_of_entries (foldl_mapSet_entries val _ [] hentries (by simp)) hmem

/-- Witness for C5: the repository's own scenario — one defined flag and
one unknown flag; the unknown one degrades to `false`. -/
theorem activeMany_total_one_entry_per_name_witness :
    mapGet (FanionService.activeMany InMemoryDriver validFlagService
      ["valid-flag", "invalid-flag"] none) "valid-flag" = some true ∧
    mapGet (FanionService.activeMany InMemoryDriver validFlagService
      ["valid-flag", "invalid-flag"] none) "invalid-flag" = some false := by
  have h := activeMany_total_one_entry_per_name InMemoryDriver validFlagService
    ["valid-flag", "invalid-flag"] none
  constructor
  · have hv := h.2.2 "valid-flag" (by simp)
    exact hv.trans (by rfl)
  · have hi := h.2.2 "invalid-flag" (by simp)
    exact hi.trans (by rfl)

/-- Counterexample for C6: with no store attached, `defineAndStore` throws
the plain `new Error("No store provider defined")` — not an instance of a
dedicated library error class such as `ProviderNotDefined`, which
errors.ts declares but nothing ever throws. -/
theorem defineAndStore_generic_error_counterexample :
    FeatureManager.defineAndStore InMemoryDriver emptyManagerNoStore "x" true =
      .error (.genericError "No store provider defined") ∧
    JsError.isLibrarySpecific (.genericError "No store provider defined") = false ∧
    JsError.genericError "No store provider defined" ≠ .providerNotDefined := by
  refine ⟨rfl, rfl, by decide⟩

/-- C6 (amended): when no storage provider is attached, `defineAndStore`
fails — but with a generic `Error` whose message is
`No store provider defined`, not with a specific error type. -/
theorem defineAndStore_no_store_fails {Ctx σ : Type} (impl : FeatureStorageProvider σ)
    (m : FeatureManager Ctx σ) (n : String) (v : Bool) (h : m.store = none) :
    FeatureManager.defineAndStore impl m n v =
      .error (.genericError "No store provider defined") := by
  simp [FeatureManager.defineAndStore, h]

/-- Witness for the amended C6: a fresh store-less manager. -/
theorem defineAndStore_no_store_fails_witness :
    FeatureManager.defineAndStore InMemoryDriver emptyManagerNoStore "dark" true =
      .error (.genericError "No store provider defined") :=
  defineAndStore_no_store_fails InMemoryDriver emptyManagerNoStore "dark" true rfl

/-- C7: the in-memory driver satisfies the round-trip contract (`set` then
`get` returns the value; `get` on a never-written or deleted name returns
`undefined`), but the Knex driver's `get` on a name with no row reads a
column of the `undefined` row and throws a `TypeError` instead of
returning `undefined` — including after a `delete`, and surfacing through
`active` as a `TypeError` instead of the documented
`FeatureNotExistsError`. -/
theorem storage_roundtrip_knex_get_missing_throws :
    InMemoryDriver.get ([] : InMemoryStorage) "missing" = .ok none ∧
    InMemoryDriver.get (mapSet ([] : InMemoryStorage) "n" true) "n" = .ok (some true) ∧
    InMemoryDriver.get (mapDelete (mapSet ([] : InMemoryStorage) "n" true) "n") "n" = .ok none ∧
    knexGet (knexSet sqliteBool ([] : KnexTable) "n" true) "n" = .ok (some true) ∧
    knexGet ([] : KnexTable) "missing" =
      .error (.typeError "Cannot read properties of undefined") ∧
    knexGet (knexDelete (knexSet sqliteBool ([] : KnexTable) "n" true) "n") "n" =
      .error (.typeError "Cannot read properties of undefined") ∧
    FeatureManager.active (KnexDatabaseDriver sqliteBool)
      ({ featureMap := [], store := some ([] : KnexTable) } : FeatureManager Unit KnexTable)
      "missing" () = .error (.typeError "Cannot read properties of undefined") := by
  refine ⟨rfl, rfl, rfl, rfl, rfl, rfl, rfl⟩

/-- Counterexample for C8: `defineAndStore` on the service records the name
in `definedFlags`, so `getDefinedFlags` returns the store-only name `x`
even though `x` was never inserted into the manager's `featureMap`. -/
theorem getDefinedFlags_store_only_counterexample :
    (FanionService.defineAndStore InMemoryDriver freshServiceMemStore "x" true).map
      (fun svc => (FanionService.getDefinedFlags svc, mapHas svc.featureManager.featureMap "x")) =
      .ok (["x"], false) := rfl

/-- C8 (amended): `getDefinedFlags()` returns exactly the names registered
through `define` or `defineAndStore` on the service, in first-registration
order (duplicates collapsed to their first position). -/
theorem getDefinedFlags_registration_order {Ctx σ : Type} (impl : FeatureStorageProvider σ)
    (ops : List (SvcOp Ctx σ)) (svc svc2 : FanionService Ctx σ)
    (h : runOps impl svc ops = .ok svc2) (hinit : svc.definedFlags = []) :
    FanionService.getDefinedFlags svc2 =
      ops.foldl (fun acc op => setAdd acc op.flagName) [] := by
  have hflags := runOps_definedFlags impl ops svc svc2 h
  rw [FanionService.getDefinedFlags, hflags, hinit]

/-- Witness for the amended C8: `define a`, `defineAndStore b`, re-`define
a` yields `["a", "b"]`. -/
theorem getDefinedFlags_registration_order_witness :
    (runOps InMemoryDriver freshServiceMemStore sampleOps).map FanionService.getDefinedFlags =
      .ok ["a", "b"] := by
  obtain ⟨svc2, hrun⟩ : ∃ svc2, runOps InMemoryDriver freshServiceMemStore sampleOps = .ok svc2 :=
    ⟨_, rfl⟩
  have hflags := getDefinedFlags_registration_order InMemoryDriver sampleOps
    freshServiceMemStore svc2 hrun rfl
  rw [hrun]
  simp only [Except.map]
  rw [hflags]
  rfl

/-- C9: `initStore()` is a no-op without a store; with a store attached
whose provider has an `initStore` method, it delegates to that method,
keeping its updated state on success and propagating its failure
unchanged. -/
theorem initStore_delegates_and_propagates {Ctx σ : Type} (impl : FeatureStorageProvider σ)
    (m : FeatureManager Ctx σ) (s s2 : σ) (hook : σ → Except JsError σ) (e : JsError) :
    (m.store = none → FeatureManager.initStore impl m = .ok m) ∧
    (m.store = some s → impl.initStore = some hook → hook s = .ok s2 →
      FeatureManager.initStore impl m = .ok { m with store := some s2 }) ∧
    (m.store = some s → impl.initStore = some hook → hook s = .error e →
      FeatureManager.initStore impl m = .error e) := by
  refine ⟨fun h => by simp [FeatureManager.initStore, h], fun h hi hh => ?_, fun h hi hh => ?_⟩
  · simp [FeatureManager.initStore, h, hi, hh, Except.map]
  · simp [FeatureManager.initStore, h, hi, hh, Except.map]

/-- Witness for C9: no store (no-op); a hook that succeeds (state kept); a
hook that rejects (failure propagated unchanged). -/
theorem initStore_delegates_and_propagates_witness :
    FeatureManager.initStore InMemoryDriver emptyManagerNoStore = .ok emptyManagerNoStore ∧
    FeatureManager.initStore memDriverWithHook emptyManagerMemStore =
      .ok { emptyManagerMemStore with store := some [("ready", true)] } ∧
    FeatureManager.initStore memDriverFailingHook emptyManagerMemStore =
      .error (.genericError "connect failed") := by
  refine ⟨?_, ?_, ?_⟩
  · exact (initStore_delegates_and_propagates InMemoryDriver emptyManagerNoStore
      [] [] (fun s => .ok s) (.genericError "x")).1 rfl
  · exact (initStore_delegates_and_propagates memDriverWithHook emptyManagerMemStore
      [] [("ready", true)] (fun s => .ok (mapSet s "ready" true)) (.genericError "x")).2.1
      rfl rfl rfl
  · exact (initStore_delegates_and_propagates memDriverFailingHook emptyManagerMemStore
      [] [] (fun _ => .error (.genericError "connect failed"))
      (.genericError "connect failed")).2.2 rfl rfl rfl

/-- C10: for an undefined, unstored flag `n`, the thrown
`FeatureNotExistsError` received the already formatted sentence
`Feature flag 'n' is not defined` as its constructor argument, and its own
template wraps it again, so the error's `message` is
`Feature Feature flag 'n' is not defined does not exists`. -/
theorem notFound_message_nests_templates {Ctx σ : Type} (impl : FeatureStorageProvider σ)
    (m : FeatureManager Ctx σ) (n : String) (c : Ctx)
    (hhas : mapHas m.featureMap n = false)
    (hstore : m.store = none ∨ ∃ s, m.store = some s ∧ impl.get s n = .ok none) :
    ∃ carried, FeatureManager.active impl m n c = .error (.featureNotExists carried) ∧
      carried = "Feature flag '" ++ n ++ "' is not defined" ∧
      (JsError.featureNotExists carried).message =
        "Feature Feature flag '" ++ n ++ "' is not defined does not exists" := by
  refine ⟨"Feature flag '" ++ n ++ "' is not defined",
    active_not_found impl m c hhas hstore, rfl, ?_⟩
  show "Feature " ++ ("Feature flag '" ++ n ++ "' is not defined") ++ " does not exists" = _
  simp only [string_append_assoc]
  have h2 : "' is not defined" ++ " does not exists" = "' is not defined does not exists" := rfl
  rw [h2, ← string_append_assoc "Feature " "Feature flag '"]
  have h1 : "Feature " ++ "Feature flag '" = "Feature Feature flag '" := rfl
  rw [h1]

/-- Witness for C10: the doubled message for the flag `new-ui`. -/
theorem notFound_message_nests_templates_witness :
    ∃ carried,
      FeatureManager.active InMemoryDriver emptyManagerNoStore "new-ui" () =
        .error (.featureNotExists carried) ∧
      carried = "Feature flag '" ++ "new-ui" ++ "' is not defined" ∧
      (JsError.featureNotExists carried).message =
        "Feature Feature flag '" ++ "new-ui" ++ "' is not defined does not exists" :=
  notFound_message_nests_templates InMemoryDriver emptyManagerNoStore "new-ui" ()
    rfl (Or.inl rfl)
